import Mathlib

/-!
Verification of the GRR minicomm client core (C++), shallowly embedded in Lean.

Embedding conventions:
* C++ `std::string` payload bytes are modelled by the `Payload` and `Bytes`
  inductives below; byte counts by their `size` functions.
* Machine integers are modelled by `Nat`/`Int`; where 64-bit overflow matters
  (the nonce generator) arithmetic is taken explicitly `% 2^64`.
* Functions returning an empty string on failure are modelled as `Option`.
* External libraries (OpenSSL, zlib, protobuf wire format, libcurl) are
  modelled algebraically: encryption/serialization constructors are free
  constructors of `Bytes`, and their decrypt/parse partial inverses match on
  those constructors.  The protobuf schema (`jobs.proto`, `sw.proto`) is not
  part of the sources; the record types are modelled from the spec (section 3).
-/

/-- Message type tag of a wire message.  Modelled from the spec: the `Message`
record has "a type (`MESSAGE`, `STATUS`, or `ITERATOR`)"; the proto schema is
not in the sources.  `MESSAGE` is the proto default value. -/
inductive MsgType where
  | MESSAGE
  | STATUS
  | ITERATOR
deriving DecidableEq, Repr

/-- Status code of a `GrrStatus`.  Modelled from the spec: "A `Status` carries
an enum `\x7bOK, GENERIC_ERROR\x7d` and an error string."  `OK` is the proto
default. -/
inductive StatusCode where
  | OK
  | GENERIC_ERROR
deriving DecidableEq, Repr

/-- Modelled from the spec: a `Status` payload carries a code and an error
string. -/
structure GrrStatus where
  status : StatusCode := .OK
  error_message : String := ""
deriving DecidableEq, Repr

/-- Certificate type tag of the `::Certificate` proto used by enrollment
(`cert_pb.set_type(::Certificate::CSR)`).  Modelled from the spec: the
enrollment payload is a "`Certificate\x7btype=CSR, pem=...\x7d`". -/
inductive CertType where
  | CSR
  | CRT
deriving DecidableEq, Repr

/-- Abstract model of the PEM text produced by `CertificateSR::ToStringPEM`
(crypto.cc wraps OpenSSL `X509_REQ`).  The PEM is modelled as the data it
encodes: the subject common name set by `SetSubject` and the public key set by
`SetPublicKey`, plus the signing key of `Sign`.  Parsing the PEM recovers
these fields. -/
structure CsrPem where
  subjectCN : String
  pubKeyId : Option Nat
  signerId : Option Nat
deriving DecidableEq, Repr

/-- The `::Certificate` proto payload of an enrollment message. -/
structure CertificatePB where
  ctype : CertType
  pem : CsrPem
deriving DecidableEq, Repr

/-- Serialized `args` bytes of a wire message.  A C++ `std::string`; modelled
as the structured data it holds, with `raw`/`tagged` for byte strings the core
does not interpret.  `tagged` carries the payload proto type name (returned by
`GetTypeName` in `ActionContext::SendResponse`). -/
inductive Payload where
  | raw : List Nat → Payload
  | cert : CertificatePB → Payload
  | status : GrrStatus → Payload
  | tagged : String → List Nat → Payload
deriving DecidableEq, Repr

/-- Byte count of a serialized payload, as returned by `args().size()`. -/
def Payload.size : Payload → Nat
  | .raw l => l.length
  | .cert _ => 64
  | .status s => s.error_message.length + 2
  | .tagged _ l => l.length

/-- Proto type name of a payload, as returned by
`google::protobuf::Message::GetTypeName`. -/
def Payload.typeName : Payload → String
  | .raw _ => "DataBlob"
  | .cert _ => "Certificate"
  | .status _ => "GrrStatus"
  | .tagged n _ => n

/-- The wire unit `GrrMessage`.  Modelled from the spec (section 3): session
identifier, request/response/task identifiers, action name, payload-type tag
`args_rdf_name`, serialized payload `args`, a type and a source; the proto schema
is not in the sources.  Proto default values are the field defaults. -/
structure GrrMessage where
  session_id : String := ""
  name : String := ""
  args_rdf_name : String := ""
  source : String := ""
  request_id : Nat := 0
  response_id : Nat := 0
  task_id : Nat := 0
  args : Payload := .raw []
  mtype : MsgType := .MESSAGE
deriving DecidableEq, Repr

/-- Shorthand for `message.args().size()`. -/
def GrrMessage.argsSize (m : GrrMessage) : Nat := m.args.size

/-!  ## Message queue (message_queue.cc)  -/

/-- State of a `MessageQueue`: the two bound parameters, the running
`args_size_` counter and the `deque` of messages (front first).  The mutex and
condition variables of the C++ class serialize operations; the embedding works
on the state between operations. -/
structure MessageQueue where
  maxMessageCount : Nat
  maxArgsSize : Int
  argsSize : Int
  messages : List GrrMessage
deriving DecidableEq, Repr

/-- A queue as built by the constructor `MessageQueue(max_count, max_args_bytes)`. -/
def MessageQueue.init (maxCount : Nat) (maxArgsBytes : Int) : MessageQueue :=
  { maxMessageCount := maxCount, maxArgsSize := maxArgsBytes, argsSize := 0,
    messages := [] }

/-- `MessageQueue::CanAddMessage` (message_queue.cc lines 72-76): the queue is
empty, or the count is strictly below `max_message_count_` and the cumulative
args size plus the new size is at most `max_args_size_`. -/
def MessageQueue.canAddMessage (q : MessageQueue) (newArgsSize : Nat) : Bool :=
  q.messages.length == 0 ||
    (decide (q.messages.length < q.maxMessageCount) &&
     decide (q.argsSize + (newArgsSize : Int) ≤ q.maxArgsSize))

/-- `MessageQueue::AddMessage` blocks (waits on `queue_shrunk_`) exactly when
`CanAddMessage(arg_size)` is false on entry. -/
def MessageQueue.addMessageBlocks (q : MessageQueue) (m : GrrMessage) : Bool :=
  ! q.canAddMessage m.argsSize

/-- State change of `MessageQueue::AddMessage` once admitted: add the args
size and append the message at the back. -/
def MessageQueue.addMessage (q : MessageQueue) (m : GrrMessage) : MessageQueue :=
  { q with argsSize := q.argsSize + (m.argsSize : Int),
           messages := q.messages ++ [m] }

/-- `MessageQueue::AddPriorityMessage`: add the args size and push the message
at the front, without any bound check. -/
def MessageQueue.addPriorityMessage (q : MessageQueue) (m : GrrMessage) :
    MessageQueue :=
  { q with argsSize := q.argsSize + (m.argsSize : Int),
           messages := m :: q.messages }

/-- The scan loop of `MessageQueue::GetMessages` (lines 35-48): walk the deque
from the front keeping running `count` and `args_size`; include a message if
`count == 0` or both the new count and the new args size fit; stop at the
first message that does not fit.  Returns the final `(count, args_size)`. -/
def getMessagesScan (maxMessageCount : Nat) (maxArgsSize : Int) :
    List GrrMessage → Nat → Int → Nat × Int
  | [], count, argsSize => (count, argsSize)
  | m :: rest, count, argsSize =>
    let newCount := count + 1
    let newArgsSize := argsSize + (m.argsSize : Int)
    if count = 0 ∨ (newCount ≤ maxMessageCount ∧ newArgsSize ≤ maxArgsSize) then
      getMessagesScan maxMessageCount maxArgsSize rest newCount newArgsSize
    else
      (count, argsSize)

/-- `MessageQueue::GetMessages`: take the scanned prefix off the front and
subtract its cumulative args size from `args_size_`.  Returns the batch and
the new queue state.  (When the queue is empty and `blocking` is set the C++
waits for a message first; the embedding describes the state transition of the
completed call.) -/
def MessageQueue.getMessages (q : MessageQueue) (maxMessageCount : Nat)
    (maxArgsSize : Int) : List GrrMessage × MessageQueue :=
  let scanned := getMessagesScan maxMessageCount maxArgsSize q.messages 0 0
  (q.messages.take scanned.1,
   { q with messages := q.messages.drop scanned.1,
            argsSize := q.argsSize - scanned.2 })

/-- Sum of the args sizes of a list of messages. -/
def argsTotal (l : List GrrMessage) : Int :=
  (l.map fun m => (m.argsSize : Int)).sum

/-- Queue states reachable from a freshly constructed queue through the public
mutating operations. -/
inductive MessageQueue.Reachable : MessageQueue → Prop where
  | init (maxCount : Nat) (maxArgsBytes : Int) :
      Reachable (MessageQueue.init maxCount maxArgsBytes)
  | add {q : MessageQueue} (m : GrrMessage) :
      Reachable q → Reachable (q.addMessage m)
  | addPriority {q : MessageQueue} (m : GrrMessage) :
      Reachable q → Reachable (q.addPriorityMessage m)
  | get {q : MessageQueue} (maxMessageCount : Nat) (maxArgsSize : Int) :
      Reachable q → Reachable (q.getMessages maxMessageCount maxArgsSize).2

/-- Observer `MessageQueue::current_args_size`: returns `args_size_`. -/
def MessageQueue.currentArgsSize (q : MessageQueue) : Int := q.argsSize

lemma argsTotal_nil : argsTotal [] = 0 := rfl

lemma argsTotal_cons (m : GrrMessage) (l : List GrrMessage) :
    argsTotal (m :: l) = (m.argsSize : Int) + argsTotal l := by
  simp [argsTotal]

lemma argsTotal_append (a b : List GrrMessage) :
    argsTotal (a ++ b) = argsTotal a + argsTotal b := by
  simp [argsTotal]

/-- The scan loop takes some prefix of the remaining deque and its running
`args_size` accumulates exactly the args sizes of that prefix. -/
lemma getMessagesScan_spec (maxC : Nat) (maxB : Int) :
    ∀ (msgs : List GrrMessage) (c : Nat) (a : Int),
      ∃ k, k ≤ msgs.length ∧
        getMessagesScan maxC maxB msgs c a = (c + k, a + argsTotal (msgs.take k)) := by
  intro msgs
  induction msgs with
  | nil =>
    intro c a
    exact ⟨0, by simp [getMessagesScan, argsTotal]⟩
  | cons m rest ih =>
    intro c a
    by_cases h : c = 0 ∨ (c + 1 ≤ maxC ∧ a + (m.argsSize : Int) ≤ maxB)
    · obtain ⟨k, hk, heq⟩ := ih (c + 1) (a + (m.argsSize : Int))
      refine ⟨k + 1, by simpa using Nat.succ_le_succ hk, ?_⟩
      simp only [getMessagesScan, if_pos h, heq, List.take_succ_cons,
        argsTotal_cons]
      refine Prod.ext ?_ ?_ <;> simp <;> omega
    · refine ⟨0, Nat.zero_le _, ?_⟩
      simp [getMessagesScan, if_neg h, argsTotal]

/-- Claim C10: in every reachable `MessageQueue` state, `current_args_size`
equals the sum of the args sizes of the queued messages (`AddMessage`,
`AddPriorityMessage` and `GetMessages` each preserve this accounting), and
every `GetMessages` call decreases it by exactly the total args size of the
batch it returns. -/
theorem queue_args_size_accounting :
    (∀ q : MessageQueue, q.Reachable →
      q.currentArgsSize = argsTotal q.messages) ∧
    (∀ (q : MessageQueue) (maxC : Nat) (maxB : Int),
      ((q.getMessages maxC maxB).2).currentArgsSize
        = q.currentArgsSize - argsTotal (q.getMessages maxC maxB).1) := by
  have hscan : ∀ (msgs : List GrrMessage) (maxC : Nat) (maxB : Int),
      (getMessagesScan maxC maxB msgs 0 0).2
        = argsTotal (msgs.take (getMessagesScan maxC maxB msgs 0 0).1) := by
    intro msgs maxC maxB
    obtain ⟨k, _, heq⟩ := getMessagesScan_spec maxC maxB msgs 0 0
    rw [heq]
    simp
  have hget : ∀ (q : MessageQueue) (maxC : Nat) (maxB : Int),
      ((q.getMessages maxC maxB).2).currentArgsSize
        = q.currentArgsSize - argsTotal (q.getMessages maxC maxB).1 := by
    intro q maxC maxB
    simp only [MessageQueue.getMessages, MessageQueue.currentArgsSize]
    rw [hscan q.messages maxC maxB]
  refine ⟨?_, hget⟩
  intro q hreach
  induction hreach with
  | init maxCount maxArgsBytes =>
    simp [MessageQueue.init, MessageQueue.currentArgsSize, argsTotal]
  | add m _ ih =>
    simp only [MessageQueue.addMessage, MessageQueue.currentArgsSize,
      argsTotal_append] at *
    simp [argsTotal_cons, argsTotal_nil, ih]
  | addPriority m _ ih =>
    simp only [MessageQueue.addPriorityMessage, MessageQueue.currentArgsSize,
      argsTotal_cons] at *
    omega
  | get maxC maxB hr ih =>
    rename_i q'
    have h2 := hget q' maxC maxB
    have hsplit : argsTotal q'.messages
        = argsTotal (q'.getMessages maxC maxB).1
          + argsTotal ((q'.getMessages maxC maxB).2).messages := by
      have : (q'.getMessages maxC maxB).1 ++ ((q'.getMessages maxC maxB).2).messages
          = q'.messages := by
        simp [MessageQueue.getMessages]
      rw [← this, argsTotal_append]
    rw [h2, ih, hsplit]
    omega

/-- Sample message used by concrete witnesses below. -/
def sampleMessage : GrrMessage :=
  { session_id := "aff4:/flows/W:session", request_id := 7, args := .raw [1, 2, 3] }

/-- Witness for `queue_args_size_accounting` at a concrete reachable state. -/
theorem queue_args_size_accounting_witness :
    ((MessageQueue.init 3 10).addMessage sampleMessage).currentArgsSize
      = argsTotal ((MessageQueue.init 3 10).addMessage sampleMessage).messages :=
  queue_args_size_accounting.1 _
    (MessageQueue.Reachable.add sampleMessage (MessageQueue.Reachable.init 3 10))

/-- Claim C4: `MessageQueue::AddMessage` completes without waiting exactly when
the queue is empty, or the message count is strictly below `max_count` and the
cumulative args size plus the new args size is at most `max_args_bytes`; in
particular an `AddMessage` on an empty queue never blocks, whatever the size
of the message. -/
theorem add_message_no_wait_iff :
    ∀ (q : MessageQueue) (m : GrrMessage),
      (q.addMessageBlocks m = false ↔
        (q.messages = [] ∨
          (q.messages.length < q.maxMessageCount ∧
           q.argsSize + (m.argsSize : Int) ≤ q.maxArgsSize))) ∧
      (q.messages = [] → q.addMessageBlocks m = false) := by
  intro q m
  constructor
  · simp [MessageQueue.addMessageBlocks, MessageQueue.canAddMessage,
      List.length_eq_zero]
    tauto
  · intro h
    simp [MessageQueue.addMessageBlocks, MessageQueue.canAddMessage, h]

/-- A message whose args exceed the 10-byte bound of the witness queue. -/
def oversizedMessage : GrrMessage := { args := .raw (List.replicate 100 0) }

/-- Witness for `add_message_no_wait_iff`: an empty queue with
`max_args_bytes = 10` accepts a 100-byte message without blocking. -/
theorem add_message_no_wait_iff_witness :
    (MessageQueue.init 5 10).messages = [] ∧
      (MessageQueue.init 5 10).addMessageBlocks oversizedMessage = false :=
  ⟨rfl, (add_message_no_wait_iff (MessageQueue.init 5 10) oversizedMessage).2 rfl⟩

/-!  ## Client configuration (config.cc)  -/

/-- Client id derivation `ClientConfig::MakeClientId` (config.cc lines
127-133): empty when there is no key, otherwise a string derived injectively
from the key.  The SHA-256-based derivation
`"C." + hex(SHA256(PublicKeyN)[0:8])` of the OpenSSL-backed key is modelled by
tagging the abstract key identifier. -/
def makeClientId : Option Nat → String
  | none => ""
  | some k => "C." ++ toString k

/-- State of a `ClientConfig` as touched by the mutating operations: the
private key (abstract identifier, `none` when `key_.get() == nullptr`), the
derived client id and the last seen server certificate serial number
(`int last_server_cert_serial_number_`). -/
structure ClientConfig where
  key : Option Nat := none
  clientId : String := ""
  lastServerCertSerialNumber : Int := 0
deriving DecidableEq, Repr

/-- `ClientConfig::ResetKey` (config.cc lines 71-78): generate a fresh key
(the RNG outcome is the explicit `newKey` argument; `RSAKey::Generate` is
modelled as succeeding), recompute the client id, write back.  The returned
`Bool` is the `WriteBackConfig` result, abstracted as the `wb` argument since
it depends only on the filesystem. -/
def ClientConfig.resetKey (cfg : ClientConfig) (newKey : Nat) (wb : Bool) :
    Bool × ClientConfig :=
  (wb, { cfg with key := some newKey, clientId := makeClientId (some newKey) })

/-- `ClientConfig::CheckUpdateServerSerial` (config.cc lines 59-69): reject a
smaller serial without touching state; accept and store a larger one (the
return value is then the `WriteBackConfig` result `wb`); equal is a no-op
success. -/
def ClientConfig.checkUpdateServerSerial (cfg : ClientConfig) (newSerial : Int)
    (wb : Bool) : Bool × ClientConfig :=
  if newSerial < cfg.lastServerCertSerialNumber then
    (false, cfg)
  else if newSerial > cfg.lastServerCertSerialNumber then
    (wb, { cfg with lastServerCertSerialNumber := newSerial })
  else
    (true, cfg)

/-- Serial number after a sequence of `CheckUpdateServerSerial` calls, each
with its requested serial and its filesystem outcome. -/
def runSerialCalls (cfg : ClientConfig) (calls : List (Int × Bool)) :
    ClientConfig :=
  calls.foldl (fun c p => (c.checkUpdateServerSerial p.1 p.2).2) cfg

/-- Claim C8: `CheckUpdateServerSerial(n)` with `n` below the stored serial
returns false and leaves the whole configuration state unchanged; with `n`
equal it returns true and changes nothing; with `n` greater it stores `n`;
and over any sequence of calls the stored serial is monotone non-decreasing. -/
theorem check_update_server_serial_correct :
    ∀ (cfg : ClientConfig) (n : Int) (wb : Bool),
      (n < cfg.lastServerCertSerialNumber →
        cfg.checkUpdateServerSerial n wb = (false, cfg)) ∧
      (n = cfg.lastServerCertSerialNumber →
        cfg.checkUpdateServerSerial n wb = (true, cfg)) ∧
      (n > cfg.lastServerCertSerialNumber →
        ((cfg.checkUpdateServerSerial n wb).2).lastServerCertSerialNumber = n) ∧
      cfg.lastServerCertSerialNumber
        ≤ ((cfg.checkUpdateServerSerial n wb).2).lastServerCertSerialNumber ∧
      (∀ calls : List (Int × Bool),
        cfg.lastServerCertSerialNumber
          ≤ (runSerialCalls cfg calls).lastServerCertSerialNumber) := by
  have hstep : ∀ (cfg : ClientConfig) (n : Int) (wb : Bool),
      cfg.lastServerCertSerialNumber
        ≤ ((cfg.checkUpdateServerSerial n wb).2).lastServerCertSerialNumber := by
    intro cfg n wb
    simp only [ClientConfig.checkUpdateServerSerial]
    split
    · simp
    · split
      · simp
        omega
      · simp
  intro cfg n wb
    ;
  refine ⟨?_, ?_, ?_, hstep cfg n wb, ?_⟩
  · intro h
    simp [ClientConfig.checkUpdateServerSerial, h]
  · intro h
    simp [ClientConfig.checkUpdateServerSerial, h]
  · intro h
    simp only [ClientConfig.checkUpdateServerSerial]
    rw [if_neg (by omega : ¬ n < cfg.lastServerCertSerialNumber), if_pos h]
  · intro calls
    induction calls generalizing cfg with
    | nil => simp [runSerialCalls]
    | cons p rest ih =>
      calc cfg.lastServerCertSerialNumber
          ≤ ((cfg.checkUpdateServerSerial p.1 p.2).2).lastServerCertSerialNumber :=
            hstep cfg p.1 p.2
        _ ≤ (runSerialCalls (cfg.checkUpdateServerSerial p.1 p.2).2 rest).lastServerCertSerialNumber :=
            ih _
        _ = (runSerialCalls cfg (p :: rest)).lastServerCertSerialNumber := by
            simp [runSerialCalls]

/-- Witness for `check_update_server_serial_correct` at a stored serial of 5:
a call with 3 is rejected without a state change. -/
theorem check_update_server_serial_correct_witness :
    (3 : Int) < ({ lastServerCertSerialNumber := 5 } : ClientConfig).lastServerCertSerialNumber ∧
      ClientConfig.checkUpdateServerSerial { lastServerCertSerialNumber := 5 } 3 true
        = (false, { lastServerCertSerialNumber := 5 }) :=
  ⟨by decide,
   (check_update_server_serial_correct { lastServerCertSerialNumber := 5 } 3 true).1
     (by decide)⟩

/-!  ## Nonce generator (comms_utils.cc lines 179-187)  -/

/-- The modulus of the C++ `uint64` arithmetic in `NonceGenerator::Generate`. -/
def u64Mod : Nat := 2 ^ 64

/-- `NonceGenerator::Generate`: with stored `last_nonce_` state `last` and a
clock reading of `now` microseconds (`now_usec`, a `uint64`), the call returns
`std::max(last_nonce_ + 1, now_usec)`, computed in `uint64` arithmetic; the
result becomes the new `last_nonce_`. -/
def nonceGenerate (last now : Nat) : Nat :=
  max ((last + 1) % u64Mod) (now % u64Mod)

/-- The nonces returned by a sequence of `Generate` calls, one per clock
reading, starting from stored state `last`. -/
def nonceRun (last : Nat) : List Nat → List Nat
  | [] => []
  | now :: rest =>
    let r := nonceGenerate last now
    r :: nonceRun r rest

/-- Claim C3 as stated is false on the code: `last_nonce_ + 1` is computed in
`uint64` arithmetic, so after a call has returned `2^64 - 1` (clock readings
are unconstrained in the claim) the next call returns
`max(0, now_us)`, not `max(last_nonce + 1, now_us)`, and the nonce sequence
can decrease.  Concretely, from state 0 the clock readings
`[2^64 - 1, 0]` produce the nonces `[2^64 - 1, 0]`, which are not strictly
increasing. -/
theorem nonce_generator_counterexample :
    nonceRun 0 [2 ^ 64 - 1, 0] = [2 ^ 64 - 1, 0] ∧
      ¬ List.Chain' (· < ·) (nonceRun 0 [2 ^ 64 - 1, 0]) := by
  have h : nonceRun 0 [2 ^ 64 - 1, 0] = [2 ^ 64 - 1, 0] := by decide
  refine ⟨h, ?_⟩
  rw [h]
  intro hc
  exact absurd (List.chain'_cons.mp hc).1 (by omega)

/-- Claim C3, amended for 64-bit overflow: each call returns
`max((last_nonce + 1) mod 2^64, now_us)` whatever the clock returns, each call
strictly increases the nonce provided the stored nonce is below `2^64 - 1`,
and any run of calls whose returned nonces all stay below `2^64 - 1` is
strictly increasing. -/
theorem nonce_generator_amended :
    (∀ last now : Nat, nonceGenerate last now
        = max ((last + 1) % u64Mod) (now % u64Mod)) ∧
    (∀ last now : Nat, last + 1 < u64Mod → last < nonceGenerate last now) ∧
    (∀ (last : Nat) (clocks : List Nat),
      (∀ r ∈ nonceRun last clocks, r + 1 < u64Mod) →
        List.Chain' (· < ·) (nonceRun last clocks)) := by
  have hstep : ∀ last now : Nat, last + 1 < u64Mod → last < nonceGenerate last now := by
    intro last now h
    have : (last + 1) % u64Mod = last + 1 := Nat.mod_eq_of_lt h
    simp only [nonceGenerate, this]
    omega
  refine ⟨fun _ _ => rfl, hstep, ?_⟩
  intro last clocks
  induction clocks generalizing last with
  | nil => intro _; simp [nonceRun]
  | cons now rest ih =>
    intro hall
    simp only [nonceRun] at hall ⊢
    rcases rest with - | ⟨now2, rest2⟩
    · simp [nonceRun]
    · have h1 : nonceGenerate last now + 1 < u64Mod := by
        refine hall _ ?_
        simp [nonceRun]
      refine List.Chain'.cons ?_ (ih (nonceGenerate last now) (fun r hr => hall r (by simp [hr])))
      · show nonceGenerate last now < nonceGenerate (nonceGenerate last now) now2
        exact hstep _ _ h1

/-- Witness for `nonce_generator_amended` at concrete states and clocks. -/
theorem nonce_generator_amended_witness :
    ((5 : Nat) + 1 < u64Mod ∧ 5 < nonceGenerate 5 3) ∧
    ((∀ r ∈ nonceRun 0 [10, 7], r + 1 < u64Mod) ∧
      List.Chain' (· < ·) (nonceRun 0 [10, 7])) :=
  ⟨⟨by decide, nonce_generator_amended.2.1 5 3 (by decide)⟩,
   ⟨by decide, nonce_generator_amended.2.2 0 [10, 7] (by decide)⟩⟩

/-!  ## Enrollment (comms_utils.cc lines 14-39, crypto.cc CSR wrappers)  -/

/-- `CertificateSR`: the OpenSSL `X509_REQ` wrapper of crypto.cc, modelled by
the data its setters store. -/
structure CertificateSR where
  subject : String := ""
  publicKey : Option Nat := none
  signer : Option Nat := none
deriving DecidableEq, Repr

/-- `CertificateSR::SetSubject`: sets the subject common name. -/
def CertificateSR.setSubject (csr : CertificateSR) (cn : String) : CertificateSR :=
  { csr with subject := cn }

/-- `CertificateSR::SetPublicKey`. -/
def CertificateSR.setPublicKey (csr : CertificateSR) (k : Nat) : CertificateSR :=
  { csr with publicKey := some k }

/-- `CertificateSR::Sign`. -/
def CertificateSR.sign (csr : CertificateSR) (k : Nat) : CertificateSR :=
  { csr with signer := some k }

/-- `CertificateSR::ToStringPEM`: the PEM text, modelled as the encoded data
(see `CsrPem`). -/
def CertificateSR.toStringPEM (csr : CertificateSR) : CsrPem :=
  { subjectCN := csr.subject, pubKeyId := csr.publicKey, signerId := csr.signer }

/-- `MessageBuilder::InitiateEnrollment` (comms_utils.cc lines 14-39), in
source order: set the CSR subject from `config->ClientId()`; if the config has
no key, `ResetKey` (fresh key `newKeyRand`, write-back outcome `wb`) and
re-read the key; set the CSR public key and sign with that key; build the
`Certificate` payload and push it on the outbox as a priority message with
session id `aff4:/flows/CA:Enrol`, args type tag `Certificate` and source
`config->ClientId()`. -/
def initiateEnrollment (cfg : ClientConfig) (newKeyRand : Nat) (wb : Bool)
    (outbox : MessageQueue) : ClientConfig × MessageQueue :=
  let csr := CertificateSR.setSubject {} cfg.clientId
  let cfg1 := match cfg.key with
    | none => (cfg.resetKey newKeyRand wb).2
    | some _ => cfg
  let csr := match cfg1.key with
    | some k => (csr.setPublicKey k).sign k
    | none => csr
  let certPb : CertificatePB := { ctype := .CSR, pem := csr.toStringPEM }
  let msg : GrrMessage :=
    { session_id := "aff4:/flows/CA:Enrol", args := .cert certPb,
      args_rdf_name := "Certificate", source := cfg1.clientId }
  (cfg1, outbox.addPriorityMessage msg)

/-- A configuration as `ReadConfig` leaves it when the file carries no
`client_private_key_pem`: no key, hence (`MakeClientId`) an empty client id. -/
def freshConfig : ClientConfig := {}

/-- Claim C7 evaluated on the code at a fresh (key-less) configuration.
`csr.SetSubject(config->ClientId())` runs before the key reset, so the CSR
subject CN is the pre-reset client id — the empty string — while after the
call the config's client id is non-empty (derived from the new key, and also
used for the message source).  Everything else the claim states holds: exactly
one priority message with session id `aff4:/flows/CA:Enrol` and args type
`Certificate`, a parseable `Certificate` of type CSR, and a non-empty private
key after the call. -/
theorem initiate_enrollment_fresh_config :
    ((initiateEnrollment freshConfig 5 true (MessageQueue.init 100 100000)).2).messages
      = [{ session_id := "aff4:/flows/CA:Enrol", args_rdf_name := "Certificate",
           source := "C.5",
           args := .cert { ctype := .CSR,
                           pem := { subjectCN := "", pubKeyId := some 5,
                                    signerId := some 5 } } }] ∧
    (initiateEnrollment freshConfig 5 true (MessageQueue.init 100 100000)).1.key
      = some 5 ∧
    (initiateEnrollment freshConfig 5 true (MessageQueue.init 100 100000)).1.clientId
      = "C.5" ∧
    ("" : String) ≠ "C.5" := by
  refine ⟨rfl, rfl, rfl, by decide⟩

/-!  ## Connection loop, 406 handling (http_connection.cc lines 197-206)  -/

/-- Value of the C++ expression `std::chrono::minutes()`: value-initialization
of a `std::chrono::duration` zero-initializes its tick count, so the
expression denotes a zero-length duration. -/
def chronoMinutesValueInit : Int := 0

/-- The enrollment retry threshold of `HttpConnectionManager::Run`: the code
compares the elapsed time against `10 * std::chrono::minutes()`, i.e. ten
times a zero duration — zero. -/
def enrollmentRetryThreshold : Int := 10 * chronoMinutesValueInit

/-- The 406 branch of `HttpConnectionManager::Run`: if the time since
`last_enrollment_` exceeds `10 * std::chrono::minutes()`, initiate enrollment
(pushing a priority message to the outbox) and set `last_enrollment_` to now;
in all cases set `failed = true`.  Times are in microseconds; the fresh key
and write-back outcome of the enrollment are passed through. -/
def handle406 (cfg : ClientConfig) (outbox : MessageQueue)
    (nowUs lastEnrollmentUs : Int) (newKeyRand : Nat) (wb : Bool) :
    ClientConfig × MessageQueue × Int × Bool :=
  if nowUs - lastEnrollmentUs > enrollmentRetryThreshold then
    let r := initiateEnrollment cfg newKeyRand wb outbox
    (r.1, r.2, nowUs, true)
  else
    (cfg, outbox, lastEnrollmentUs, true)

/-- Claim C9 evaluated on the code: a 406 arriving 60 seconds (less than 10
minutes) after the previous enrollment attempt nevertheless builds and pushes
an enrollment message and updates `last_enrollment_`, because
`10 * std::chrono::minutes()` value-initializes to a zero duration; the cycle
is marked failed in both branches. -/
theorem enrollment_window_zero_on_406 :
    ((60000000 : Int) - 0 < 10 * 60 * 1000000) ∧
    ((handle406 freshConfig (MessageQueue.init 100 100000) 60000000 0 5 true).2.1).messages.length
      = 1 ∧
    (handle406 freshConfig (MessageQueue.init 100 100000) 60000000 0 5 true).2.2.1
      = 60000000 ∧
    (handle406 freshConfig (MessageQueue.init 100 100000) 60000000 0 5 true).2.2.2
      = true ∧
    (handle406 freshConfig (MessageQueue.init 100 100000) 0 0 5 true).2.2.2
      = true := by
  refine ⟨by decide, rfl, rfl, rfl, rfl⟩

/-!  ## Connection establishment (http_connection.cc lines 116-148)  -/

/-- Outcome of probing one `(control url, proxy)` pair: the HTTP status of the
GET of `<dirname(url)>/server.pem`, and the results of the three certificate
checks applied to its body (`body contains "BEGIN CERTIFICATE"`,
`Certificate::FromPEM`, `ca_cert().Verify`).  Abstracts libcurl and OpenSSL. -/
structure ServerPemResponse where
  httpResponseCode : Int
  bodyHasBeginCertificate : Bool
  certParses : Bool
  caVerifies : Bool
deriving DecidableEq, Repr

/-- All four predicates of the discovery step hold for this pair. -/
def pairPasses (r : ServerPemResponse) : Bool :=
  r.httpResponseCode == 200 && r.bodyHasBeginCertificate && r.certParses &&
    r.caVerifies

/-- The pair sequence `TryEstablishConnection` iterates over: the Cartesian
product of the control urls with the proxies extended by `""` (direct
connection), urls outermost. -/
def connectionPairs (controlUrls proxyServers : List String) :
    List (String × String) :=
  controlUrls.flatMap fun url =>
    (proxyServers ++ [""]).map fun proxy => (url, proxy)

/-- The loop body of `HttpConnectionManager::TryEstablishConnection` over the
pair sequence.  Every branch of the C++ loop body ends in a `return`: a pair
passing all four checks returns the new connection (modelled by the pair),
and every failed check executes `return nullptr` — aborting the whole
function, so the tail of the pair sequence is never examined. -/
def tryPairs (net : String → String → ServerPemResponse) :
    List (String × String) → Option (String × String)
  | [] => none
  | (url, proxy) :: _rest =>
    let r := net url proxy
    if r.httpResponseCode ≠ 200 then none
    else if ¬ r.bodyHasBeginCertificate then none
    else if ¬ r.certParses then none
    else if ¬ r.caVerifies then none
    else some (url, proxy)

/-- `HttpConnectionManager::TryEstablishConnection`: probe the pair sequence;
`none` models returning `nullptr` (the caller sleeps and calls again). -/
def tryEstablishConnection (net : String → String → ServerPemResponse)
    (controlUrls proxyServers : List String) : Option (String × String) :=
  tryPairs net (connectionPairs controlUrls proxyServers)

/-- A network in which the first probed pair (url, "proxy1") answers 404 but
the very next pair — the same url via direct connection — passes all four
checks. -/
def demoNet : String → String → ServerPemResponse := fun _url proxy =>
  if proxy = "proxy1" then
    { httpResponseCode := 404, bodyHasBeginCertificate := false,
      certParses := false, caVerifies := false }
  else
    { httpResponseCode := 200, bodyHasBeginCertificate := true,
      certParses := true, caVerifies := true }

/-- Claim C5 evaluated on the code: with one control url and the proxy list
["proxy1"], the first pair fails its HTTP check and `TryEstablishConnection`
returns `nullptr` without attempting the next pair of the product, although
that pair (direct connection) satisfies all predicates — so no connection is
established. -/
theorem try_establish_connection_aborts_on_first_failure :
    tryEstablishConnection demoNet ["http://srv/control"] ["proxy1"] = none ∧
    pairPasses (demoNet "http://srv/control" "") = true ∧
    ("http://srv/control", "")
      ∈ connectionPairs ["http://srv/control"] ["proxy1"] := by
  refine ⟨rfl, rfl, by decide⟩

/-!  ## Secure session (comms_utils.cc lines 41-177)

The byte strings flowing through the session are modelled by the free algebra
`Bytes`: AES/RSA encryptions, signatures, HMACs, zlib deflation and protobuf
serializations are constructors, and the corresponding decrypt/parse/inflate
operations are their partial inverses (an ideal-cipher model of OpenSSL and of
the protobuf wire format; C++ functions returning an empty string on failure
return `none`).  -/

/-- The `CipherProperties` proto (per-session symmetric state).  Modelled from
the spec: cipher name, session key, metadata IV, HMAC key, HMAC type
(`FULL_HMAC`, modelled as 1); the schema is not in the sources. -/
structure CipherProperties where
  name : String
  key : List Nat
  metadata_iv : List Nat
  hmac_key : List Nat
  hmac_type : Nat
deriving DecidableEq, Repr

/-- Byte strings handled by the secure session, as a free algebra of the
operations that produce them. -/
inductive Bytes where
  | raw : List Nat → Bytes
  | cpSerialized : CipherProperties → Bytes
  | cmSerialized : Bytes → String → Bytes
  | mlSerialized : List GrrMessage → Bytes
  | smlSerialized : Int → Nat → Bytes → Bytes
  | aesEnc : List Nat → List Nat → Bytes → Bytes
  | rsaEnc : Nat → Bytes → Bytes
  | rsaSig : Nat → Bytes → Bytes
  | hmacTag : List Nat → Bytes → Bytes → Bytes → List Nat → Nat → Bytes
  | deflated : Bytes → Bytes
deriving DecidableEq, Repr

/-- Length of a byte string (`std::string::length`).  Only the relative sizes
of a serialized `MessageList` and its deflated form are observable in the
code (the compression choice of `PackMessages`); zlib output size is modelled
so that either branch can win. -/
def Bytes.size : Bytes → Nat
  | .raw l => l.length
  | .cpSerialized _ => 32
  | .cmSerialized s _ => s.size + 16
  | .mlSerialized msgs => 2 + msgs.length + (msgs.map GrrMessage.argsSize).sum
  | .smlSerialized _ _ b => b.size + 8
  | .aesEnc _ _ p => p.size + 16
  | .rsaEnc _ _ => 256
  | .rsaSig _ _ => 256
  | .hmacTag _ _ _ _ _ _ => 20
  | .deflated b => b.size / 2 + 1

/-- The `SignedMessageList` proto: nonce timestamp, compression flag
(`UNCOMPRESSED = 0`, `ZCOMPRESSION = 1`, the proto default being 0) and the
(possibly deflated) serialized `MessageList`.  Modelled from the spec; the
schema is not in the sources. -/
structure SignedMessageList where
  timestamp : Int := 0
  compression : Nat := 0
  message_list : Bytes := .raw []
deriving DecidableEq, Repr

/-- Serialization of a `SignedMessageList` (`SerializeAsString`). -/
def serializeSignedMessageList (s : SignedMessageList) : Bytes :=
  .smlSerialized s.timestamp s.compression s.message_list

/-- `SignedMessageList::ParseFromString`. -/
def parseSignedMessageList : Bytes → Option SignedMessageList
  | .smlSerialized t c ml => some { timestamp := t, compression := c, message_list := ml }
  | _ => none

/-- `CipherProperties::ParseFromString`. -/
def parseCipherProperties : Bytes → Option CipherProperties
  | .cpSerialized p => some p
  | _ => none

/-- `MessageList::ParseFromString`; the `MessageList` is its `job` sequence. -/
def parseMessageList : Bytes → Option (List GrrMessage)
  | .mlSerialized msgs => some msgs
  | _ => none

/-- `AES128CBCCipher::Encrypt`. -/
def aes128Encrypt (key iv : List Nat) (pt : Bytes) : Bytes := .aesEnc key iv pt

/-- `AES128CBCCipher::Decrypt`: inverts `aes128Encrypt` under the same key and
IV; anything else is a failure (the C++ returns an empty string). -/
def aes128Decrypt (key iv : List Nat) : Bytes → Option Bytes
  | .aesEnc k i pt => if k = key ∧ i = iv then some pt else none
  | _ => none

/-- `RSAKey::Decrypt` (PKCS#1 OAEP): a key pair is modelled by one shared
identifier, so decryption succeeds exactly on ciphertexts produced for the
certificate holding this key. -/
def rsaDecrypt (privKey : Nat) : Bytes → Option Bytes
  | .rsaEnc pub pt => if pub = privKey then some pt else none
  | _ => none

/-- `ZLib::Deflate`. -/
def zlibDeflate (b : Bytes) : Bytes := .deflated b

/-- `ZLib::Inflate`: inverts `zlibDeflate`; on malformed input the C++ returns
garbage that no parse accepts, modelled as an empty raw string. -/
def zlibInflate : Bytes → Bytes
  | .deflated b => b
  | _ => .raw []

/-- The `ClientCommunication` envelope.  Modelled from the spec (section 3);
the schema is not in the sources. -/
structure ClientCommunication where
  encrypted : Bytes := .raw []
  encrypted_cipher : Bytes := .raw []
  encrypted_cipher_metadata : Bytes := .raw []
  packet_iv : List Nat := []
  full_hmac : Bytes := .raw []
  api_version : Nat := 0
deriving DecidableEq, Repr

/-- `ComputeHMAC` (comms_utils.cc lines 44-56): HMAC-SHA1 under `key` of
`encrypted || encrypted_cipher || encrypted_cipher_metadata || packet_iv ||
api_version` (the version as a 32-bit little-endian value), modelled as an
ideal MAC over those five fields. -/
def computeHMAC (key : List Nat) (input : ClientCommunication) : Bytes :=
  .hmacTag key input.encrypted input.encrypted_cipher
    input.encrypted_cipher_metadata input.packet_iv input.api_version

/-- Session state cached by the `SecureSession` constructor. -/
structure SecureSession where
  clientId : String
  ourKey : Nat
  encryptedCipherProperties : Bytes
  encryptedCipherMetadata : Bytes
  sessionKey : List Nat
  hmacKey : List Nat
deriving DecidableEq, Repr

/-- The `SecureSession` constructor (comms_utils.cc lines 59-80): build
`CipherProperties` from three fresh random 16-byte strings (explicit
arguments here), RSA-encrypt their serialization under the target
certificate's key, cache session and HMAC keys, and cache the AES-encrypted
`CipherMetadata` (signature of the serialized properties by our key, plus the
client id) under `(session key, metadata IV)`. -/
def mkSecureSession (clientId : String) (ourKey targetCertKey : Nat)
    (sessionKeyRand metadataIvRand hmacKeyRand : List Nat) : SecureSession :=
  let properties : CipherProperties :=
    { name := "aes_128_cbc", key := sessionKeyRand,
      metadata_iv := metadataIvRand, hmac_key := hmacKeyRand, hmac_type := 1 }
  { clientId := clientId, ourKey := ourKey,
    encryptedCipherProperties :=
      .rsaEnc targetCertKey (.cpSerialized properties),
    sessionKey := properties.key,
    hmacKey := properties.hmac_key,
    encryptedCipherMetadata :=
      aes128Encrypt properties.key properties.metadata_iv
        (.cmSerialized (.rsaSig ourKey (.cpSerialized properties)) clientId) }

/-- `SecureSession::PackMessages` (comms_utils.cc lines 99-114): serialize
the `MessageList`, deflate it, keep whichever is shorter; the compression
flag is set (to `ZCOMPRESSION`) only when the deflated form wins. -/
def packMessages (messages : List GrrMessage) : SignedMessageList :=
  let serialized := Bytes.mlSerialized messages
  let compressed := zlibDeflate serialized
  if serialized.size ≤ compressed.size then
    { message_list := serialized }
  else
    { message_list := compressed, compression := 1 }

/-- `SecureSession::EncodeMessages` (comms_utils.cc lines 82-97): attach the
cached encrypted cipher blobs, a fresh random packet IV (explicit argument)
and api version 3; pack the messages, stamp the nonce, AES-encrypt the signed
list under `(session key, packet IV)`; finally compute the full HMAC over the
assembled envelope. -/
def SecureSession.encodeMessages (s : SecureSession) (messages : List GrrMessage)
    (nonce : Int) (packetIvRand : List Nat) : ClientCommunication :=
  let signedList := { packMessages messages with timestamp := nonce }
  let pre : ClientCommunication :=
    { encrypted_cipher := s.encryptedCipherProperties,
      encrypted_cipher_metadata := s.encryptedCipherMetadata,
      packet_iv := packetIvRand,
      api_version := 3,
      encrypted := aes128Encrypt s.sessionKey packetIvRand
        (serializeSignedMessageList signedList),
      full_hmac := .raw [] }
  { pre with full_hmac := computeHMAC s.hmacKey pre }

/-- `SecureSession::DecodeMessages` (comms_utils.cc lines 116-177), returning
`some jobs` for `true` plus the messages appended to `output`, `none` for
`false`.  The compression switch mirrors the source: cases `UNCOMPRESSED`
and `ZCOMPRESSION` set `parse_result`, while the `default` branch only logs —
`bool parse_result` stays uninitialized and is then read by
`if (!parse_result)`; the indeterminate value of that read is the explicit
`indetParseResult` argument. -/
def SecureSession.decodeMessages (s : SecureSession)
    (input : ClientCommunication) (nonce : Int) (indetParseResult : Bool) :
    Option (List GrrMessage) :=
  match rsaDecrypt s.ourKey input.encrypted_cipher with
  | none => none
  | some serializedCipher =>
    match parseCipherProperties serializedCipher with
    | none => none
    | some cipherProps =>
      if computeHMAC cipherProps.hmac_key input ≠ input.full_hmac then none
      else
        match aes128Decrypt cipherProps.key input.packet_iv input.encrypted with
        | none => none
        | some decryptedPacket =>
          match parseSignedMessageList decryptedPacket with
          | none => none
          | some sml =>
            if sml.timestamp ≠ nonce then none
            else
              let pr : Bool × List GrrMessage :=
                match sml.compression with
                | 0 => match parseMessageList sml.message_list with
                       | some l => (true, l)
                       | none => (false, [])
                | 1 => match parseMessageList (zlibInflate sml.message_list) with
                       | some l => (true, l)
                       | none => (false, [])
                | _ => (indetParseResult, [])
              if pr.1 then some pr.2 else none

/-- `DecodeMessages` as seen by the caller: the boolean result and the
`output` vector the decoded messages are appended to. -/
def SecureSession.decodeMessagesInto (s : SecureSession)
    (input : ClientCommunication) (output : List GrrMessage) (nonce : Int)
    (indetParseResult : Bool) : Bool × List GrrMessage :=
  match s.decodeMessages input nonce indetParseResult with
  | some l => (true, output ++ l)
  | none => (false, output)

/-- Claim C2: decoding an envelope produced by `EncodeMessages(M, N)` with a
decoder whose RSA private key corresponds to the encoder's target certificate
and with the same nonce `N` succeeds and appends exactly the messages of `M`,
in order, to the output; decoding it with any nonce `N2 ≠ N` fails (and
appends nothing). -/
theorem secure_session_roundtrip (clientId : String) (ourKey targetCertKey : Nat)
    (ks miv hk ivR : List Nat) (M : List GrrMessage) (N : Int)
    (dec : SecureSession) (hdec : dec.ourKey = targetCertKey)
    (indet : Bool) (output : List GrrMessage) :
    dec.decodeMessagesInto
        ((mkSecureSession clientId ourKey targetCertKey ks miv hk).encodeMessages M N ivR)
        output N indet
      = (true, output ++ M) ∧
    ∀ N2 : Int, N2 ≠ N →
      dec.decodeMessagesInto
          ((mkSecureSession clientId ourKey targetCertKey ks miv hk).encodeMessages M N ivR)
          output N2 indet
        = (false, output) := by
  have hmain : ∀ N2 : Int,
      dec.decodeMessages
          ((mkSecureSession clientId ourKey targetCertKey ks miv hk).encodeMessages M N ivR)
          N2 indet
        = if N = N2 then some M else none := by
    intro N2
    by_cases hsize :
        (Bytes.mlSerialized M).size ≤ ((Bytes.mlSerialized M).deflated).size
    · simp [SecureSession.decodeMessages, SecureSession.encodeMessages,
        mkSecureSession, packMessages, hsize, serializeSignedMessageList,
        parseSignedMessageList, parseCipherProperties, parseMessageList,
        rsaDecrypt, aes128Decrypt, aes128Encrypt, zlibInflate, zlibDeflate,
        computeHMAC, hdec]
    · simp [SecureSession.decodeMessages, SecureSession.encodeMessages,
        mkSecureSession, packMessages, hsize, serializeSignedMessageList,
        parseSignedMessageList, parseCipherProperties, parseMessageList,
        rsaDecrypt, aes128Decrypt, aes128Encrypt, zlibInflate, zlibDeflate,
        computeHMAC, hdec]
  constructor
  · simp [SecureSession.decodeMessagesInto, hmain N]
  · intro N2 hne
    have hN : ¬ N = N2 := fun h => hne h.symm
    simp [SecureSession.decodeMessagesInto, hmain N2, hN]

/-- Decoder session used by the secure-session witnesses: its private key (2)
corresponds to the encoder's target certificate key below. -/
def demoDecoder : SecureSession := mkSecureSession "server" 2 9 [7] [8] [9]

/-- Witness for `secure_session_roundtrip` at concrete keys, randomness,
messages and nonces. -/
theorem secure_session_roundtrip_witness :
    demoDecoder.ourKey = 2 ∧ (5 : Int) ≠ 4 ∧
    demoDecoder.decodeMessagesInto
        ((mkSecureSession "C.1" 1 2 [1] [2] [3]).encodeMessages [sampleMessage] 4 [6])
        [] 4 false
      = (true, [] ++ [sampleMessage]) ∧
    demoDecoder.decodeMessagesInto
        ((mkSecureSession "C.1" 1 2 [1] [2] [3]).encodeMessages [sampleMessage] 4 [6])
        [] 5 false
      = (false, []) :=
  ⟨rfl, by decide,
   (secure_session_roundtrip "C.1" 1 2 [1] [2] [3] [6] [sampleMessage] 4
      demoDecoder rfl false []).1,
   (secure_session_roundtrip "C.1" 1 2 [1] [2] [3] [6] [sampleMessage] 4
      demoDecoder rfl false []).2 5 (by decide)⟩

/-- An envelope that passes RSA decryption (private key 1), cipher parsing,
the HMAC check, AES decryption and the nonce check (nonce 7), but whose
decrypted `SignedMessageList` carries compression value 2 — neither
`UNCOMPRESSED` (0) nor `ZCOMPRESSION` (1). -/
def unknownCompressionEnvelope : ClientCommunication :=
  let props : CipherProperties :=
    { name := "aes_128_cbc", key := [0], metadata_iv := [1], hmac_key := [2],
      hmac_type := 1 }
  let pre : ClientCommunication :=
    { encrypted_cipher := .rsaEnc 1 (.cpSerialized props),
      encrypted_cipher_metadata := .raw [],
      packet_iv := [3], api_version := 3,
      encrypted := .aesEnc [0] [3] (.smlSerialized 7 2 (.raw [])),
      full_hmac := .raw [] }
  { pre with full_hmac := computeHMAC [2] pre }

/-- A session whose private key (1) matches `unknownCompressionEnvelope`. -/
def unknownCompressionDecoder : SecureSession := mkSecureSession "c" 1 9 [] [] []

/-- Claim C6 evaluated on the code: on a compression value that is neither
`UNCOMPRESSED` nor `ZCOMPRESSION`, the switch's `default` branch only logs —
it neither returns false nor assigns `parse_result` — so the following
`if (!parse_result)` reads the uninitialized `bool` (undefined behaviour,
the `indetParseResult` argument of the embedding).  When that indeterminate
value is true, `DecodeMessages` returns true (success) while appending no
messages, contradicting the claim that it returns false; only when the
indeterminate value happens to be false does it return false.  The second
half of the claim — no messages appended — holds either way. -/
theorem decode_unknown_compression_not_failed :
    unknownCompressionDecoder.decodeMessagesInto unknownCompressionEnvelope [] 7 true
      = (true, []) ∧
    unknownCompressionDecoder.decodeMessagesInto unknownCompressionEnvelope [] 7 false
      = (false, []) :=
  ⟨rfl, rfl⟩

/-!  ## Action dispatcher (client_action_dispatcher.cc lines 35-65,
client_action.cc `ActionContext`)  -/

/-- State of an `ActionContext` during one request: the cumulative status, the
next response id (`response_id_`, starting at 1) and the messages sent to the
outbox so far, in order. -/
structure CtxState where
  status : GrrStatus := {}
  responseId : Nat := 1
  sent : List GrrMessage := []
deriving DecidableEq, Repr

/-- The message built by `ActionContext::SendResponse`
(client_action.cc lines 23-43): args type tag and serialized payload from the
payload, the given type (left at the proto default `MESSAGE` when passed the
default, which is the same value), and name, request, response, session and
task ids; the response id is the context counter, incremented after use. -/
def mkResponseMessage (req : GrrMessage) (responseId : Nat) (payload : Payload)
    (t : MsgType) : GrrMessage :=
  { args_rdf_name := payload.typeName, args := payload, mtype := t,
    name := req.name, request_id := req.request_id, response_id := responseId,
    session_id := req.session_id, task_id := req.task_id }

/-- `ActionContext::SendResponse`: build the response message (payload
serialization is total in the model) and send it via the outbox. -/
def ctxSendResponse (req : GrrMessage) (ctx : CtxState) (payload : Payload)
    (t : MsgType) : CtxState :=
  { ctx with responseId := ctx.responseId + 1,
             sent := ctx.sent ++ [mkResponseMessage req ctx.responseId payload t] }

/-- `ActionContext::SetError`: record a `GENERIC_ERROR` status without
sending. -/
def ctxSetError (ctx : CtxState) (errorMessage : String) : CtxState :=
  { ctx with status := { status := .GENERIC_ERROR, error_message := errorMessage } }

/-- One call a handler can make on its `ActionContext`: `SendResponse`,
`SendMessage` (verbatim message to the outbox) or `SetError`. -/
inductive HandlerOp where
  | sendResponse : Payload → MsgType → HandlerOp
  | sendMessage : GrrMessage → HandlerOp
  | setError : String → HandlerOp
deriving Repr

/-- Effect of one handler call on the context. -/
def runOp (req : GrrMessage) (ctx : CtxState) : HandlerOp → CtxState
  | .sendResponse payload t => ctxSendResponse req ctx payload t
  | .sendMessage m => { ctx with sent := ctx.sent ++ [m] }
  | .setError e => ctxSetError ctx e

/-- A `ClientAction::ProcessRequest` implementation, modelled by the context
calls it makes for a given request, followed by `none` for a normal return or
`some w` for a thrown `std::exception` with `what() = w` (caught by the
dispatcher after the listed calls took effect). -/
abbrev Handler : Type := GrrMessage → List HandlerOp × Option String

/-- The `actions_` registry: action name to handler, as populated by
`AddAction` before the dispatcher starts. -/
abbrev ActionRegistry : Type := List (String × Handler)

/-- `actions_.find(m.name())`. -/
def findAction (acts : ActionRegistry) (name : String) : Option Handler :=
  (acts.find? fun p => p.1 == name).map Prod.snd

/-- Context state after the lookup/dispatch part of the `ActionLoop` body for
one message: unknown action names set `GENERIC_ERROR("Unrecognized action: " +
name)`; a known handler runs its context calls, and a thrown exception is
caught and turned into
`GENERIC_ERROR("Exception in ProcessRequest: " + what)`. -/
def runHandlerCtx (acts : ActionRegistry) (m : GrrMessage) : CtxState :=
  match findAction acts m.name with
  | none => ctxSetError {} ("Unrecognized action: " ++ m.name)
  | some h =>
    let r := h m
    let ctx := r.1.foldl (runOp m) {}
    match r.2 with
    | none => ctx
    | some w => ctxSetError ctx ("Exception in ProcessRequest: " ++ w)

/-- Full `ActionLoop` body for one message: dispatch, then in all paths
`context.SendResponse(context.Status(), GrrMessage::STATUS)`.  Returns the
messages pushed to the outbox for this message, in order. -/
def processMessage (acts : ActionRegistry) (m : GrrMessage) : List GrrMessage :=
  let ctx := runHandlerCtx acts m
  (ctxSendResponse m ctx (.status ctx.status) .STATUS).sent

/-- The final status reply `processMessage` appends for a request. -/
def finalStatusMessage (acts : ActionRegistry) (m : GrrMessage) : GrrMessage :=
  mkResponseMessage m (runHandlerCtx acts m).responseId
    (.status (runHandlerCtx acts m).status) .STATUS

/-- One pass of `ActionLoop` over a dequeued batch: messages are processed in
order; if the shutdown flag is observed the loop returns, dropping the rest of
the batch. -/
def actionLoopBatch (shuttingDown : Bool) (acts : ActionRegistry)
    (batch : List GrrMessage) : List GrrMessage :=
  if shuttingDown then [] else batch.flatMap (processMessage acts)

/-- A message is a STATUS-typed message. -/
def isStatus (m : GrrMessage) : Bool := m.mtype == .STATUS

/-- The registered handlers never send STATUS-typed messages themselves: this
is the documented handler contract ("Should send all necessary responses,
except for the final status message", client_action.h) and holds for every
action in the repository. -/
def HandlersSendNoStatus (acts : ActionRegistry) : Prop :=
  ∀ p ∈ acts, ∀ m : GrrMessage, ∀ op ∈ (p.2 m).1,
    match op with
    | .sendResponse _ t => t ≠ .STATUS
    | .sendMessage msg => msg.mtype ≠ .STATUS
    | .setError _ => True

lemma foldl_runOp_sent (m : GrrMessage) :
    ∀ (ops : List HandlerOp)
      (_ : ∀ op ∈ ops, match op with
        | .sendResponse _ t => t ≠ MsgType.STATUS
        | .sendMessage msg => msg.mtype ≠ MsgType.STATUS
        | .setError _ => True)
      (ctx : CtxState),
      ∀ x ∈ (ops.foldl (runOp m) ctx).sent, x ∈ ctx.sent ∨ isStatus x = false := by
  intro ops
  induction ops with
  | nil =>
    intro _ ctx x hx
    exact Or.inl hx
  | cons op rest ih =>
    intro hben ctx x hx
    have hrest := ih (fun o ho => hben o (List.mem_cons_of_mem _ ho)) (runOp m ctx op)
    rcases hrest x hx with hmem | hns
    · cases op with
      | sendResponse payload t =>
        simp only [runOp, ctxSendResponse, List.mem_append,
          List.mem_singleton] at hmem
        rcases hmem with h | h
        · exact Or.inl h
        · refine Or.inr ?_
          have ht := hben _ (List.mem_cons_self _ _)
          simp only at ht
          subst h
          simp [isStatus, mkResponseMessage]
          intro hc
          exact ht hc
      | sendMessage msg =>
        simp only [runOp, List.mem_append, List.mem_singleton] at hmem
        rcases hmem with h | h
        · exact Or.inl h
        · refine Or.inr ?_
          have ht := hben _ (List.mem_cons_self _ _)
          simp only at ht
          subst h
          simp [isStatus]
          intro hc
          exact ht hc
      | setError e =>
        simp only [runOp, ctxSetError] at hmem
        exact Or.inl hmem
    · exact Or.inr hns

lemma runHandlerCtx_sent_no_status (acts : ActionRegistry)
    (hben : HandlersSendNoStatus acts) (m : GrrMessage) :
    ∀ x ∈ (runHandlerCtx acts m).sent, isStatus x = false := by
  intro x hx
  unfold runHandlerCtx at hx
  cases hfind : findAction acts m.name with
  | none =>
    rw [hfind] at hx
    simp [ctxSetError] at hx
  | some h =>
    rw [hfind] at hx
    have hx2 : x ∈ (match (h m).2 with
        | none => (h m).1.foldl (runOp m) {}
        | some w => ctxSetError ((h m).1.foldl (runOp m) {})
            ("Exception in ProcessRequest: " ++ w)).sent := hx
    have hmem : ∃ p ∈ acts, p.2 = h := by
      unfold findAction at hfind
      rcases Option.map_eq_some'.mp hfind with ⟨p, hp, hsnd⟩
      exact ⟨p, List.mem_of_find?_eq_some hp, hsnd⟩
    rcases hmem with ⟨p, hp, hsnd⟩
    have hops := hben p hp m
    rw [hsnd] at hops
    have hfold := foldl_runOp_sent m (h m).1 hops {}
    cases hthrow : (h m).2 with
    | none =>
      rw [hthrow] at hx2
      rcases hfold x hx2 with hmem2 | hns
      · simp [CtxState.sent] at hmem2
      · exact hns
    | some w =>
      rw [hthrow] at hx2
      simp only [ctxSetError] at hx2
      rcases hfold x hx2 with hmem2 | hns
      · simp [CtxState.sent] at hmem2
      · exact hns

/-- Claim C1: with the dispatcher running (shutdown flag unset) and handlers
that obey the documented contract of never sending STATUS-typed responses
themselves, a dequeued batch is processed message by message, each message
contributing its outbox pushes in order (so each terminal status precedes any
output of the next message); and for every message — action known, unknown, or
handler throwing — exactly one STATUS-typed message is pushed, it is the last
push for that message, and it carries the context's final status and the
request and session ids of the incoming message. -/
theorem dispatcher_exactly_one_status (acts : ActionRegistry)
    (hben : HandlersSendNoStatus acts) (sd : Bool) (hsd : sd = false)
    (batch : List GrrMessage) (m : GrrMessage) :
    actionLoopBatch sd acts batch = batch.flatMap (processMessage acts) ∧
    (processMessage acts m).filter isStatus = [finalStatusMessage acts m] ∧
    (processMessage acts m).getLast? = some (finalStatusMessage acts m) ∧
    (finalStatusMessage acts m).mtype = .STATUS ∧
    (finalStatusMessage acts m).request_id = m.request_id ∧
    (finalStatusMessage acts m).session_id = m.session_id ∧
    (finalStatusMessage acts m).args = .status (runHandlerCtx acts m).status := by
  subst hsd
  have hsplit : processMessage acts m
      = (runHandlerCtx acts m).sent ++ [finalStatusMessage acts m] := rfl
  refine ⟨by simp [actionLoopBatch], ?_, ?_, rfl, rfl, rfl, rfl⟩
  · rw [hsplit, List.filter_append]
    have h1 : ((runHandlerCtx acts m).sent).filter isStatus = [] := by
      rw [List.filter_eq_nil_iff]
      intro a ha
      simp [runHandlerCtx_sent_no_status acts hben m a ha]
    rw [h1]
    simp [finalStatusMessage, isStatus, mkResponseMessage]
  · rw [hsplit]
    exact List.getLast?_concat _

/-- A handler sending one normal (non-STATUS) response, used by the dispatcher
witness. -/
def demoHandler : Handler :=
  fun _ => ([HandlerOp.sendResponse (.tagged "EchoReply" [42]) .MESSAGE], none)

/-- A one-action registry for the dispatcher witness. -/
def demoRegistry : ActionRegistry := [("Echo", demoHandler)]

/-- A request for the registered action. -/
def echoRequest : GrrMessage :=
  { name := "Echo", request_id := 3, session_id := "aff4:/flows/F1" }

/-- Witness for `dispatcher_exactly_one_status` at a concrete registry and
request. -/
theorem dispatcher_exactly_one_status_witness :
    HandlersSendNoStatus demoRegistry ∧ false = false ∧
    (processMessage demoRegistry echoRequest).filter isStatus
      = [finalStatusMessage demoRegistry echoRequest] ∧
    (finalStatusMessage demoRegistry echoRequest).request_id
      = echoRequest.request_id := by
  have hben : HandlersSendNoStatus demoRegistry := by
    intro p hp m op hop
    simp only [demoRegistry, List.mem_singleton] at hp
    subst hp
    simp only [demoHandler, List.mem_singleton] at hop
    subst hop
    simp
  exact ⟨hben, rfl,
    (dispatcher_exactly_one_status demoRegistry hben false rfl [] echoRequest).2.1,
    (dispatcher_exactly_one_status demoRegistry hben false rfl [] echoRequest).2.2.2.2.1⟩
